import Mathlib

/-
  Verification of the hp3478ext firmware core (hp3478-ext.c) against its
  natural-language specification.  The C functions referenced by the claims
  are shallowly embedded below: machine integers become Nat/Int (with
  explicit % 2^w where wrap-around matters), busy-wait handshakes become
  oracles telling whether each wait completed before its deadline, and
  fallible GPIB operations return Option/Bool results.
-/

namespace HP3478

/-! ## End-of-message flag bits (GPIB_END_* in hp3478-ext.c, lines 261-264) -/

def GPIB_END_CR : Nat := 1

def GPIB_END_LF : Nat := 2

def GPIB_END_EOI : Nat := 4

def GPIB_END_BUF : Nat := 8

def crReq (e : Nat) : Bool := e &&& GPIB_END_CR != 0

def lfReq (e : Nat) : Bool := e &&& GPIB_END_LF != 0

def eoiReq (e : Nat) : Bool := e &&& GPIB_END_EOI != 0

/-! ## gpib_transmit (hp3478-ext.c lines 451-500)

The handshake environment is abstracted by an oracle: `quiescent` is the
entry test `nrfd() || ndac()` (the C code returns 0 when both lines are
released), `nrfdOk i` / `ndacOk i` tell whether the NRFD- respectively
NDAC-wait for byte `i` completed before the 200 ms deadline. -/

structure TxEnv where
  quiescent : Bool
  nrfdOk : Nat → Bool
  ndacOk : Nat → Bool

/-- Effective transmitted length: `len` is a uint8_t incremented once per
requested LF and CR (lines 459-460), hence the mod-256 wrap. -/
def effLen (n e : Nat) : Nat :=
  ((n + (if lfReq e then 1 else 0)) + (if crReq e then 1 else 0)) % 256

/-- Byte placed on the data lines at loop index `i` (lines 464-468).
The C comparisons `i == len-2` / `i == len-1` are `int`-promoted, which is
`i + 2 = len` / `i + 1 = len` without wrap. -/
def txByte (buf : List Nat) (e len i : Nat) : Nat :=
  if crReq e ∧ lfReq e ∧ i + 2 = len then 13
  else if crReq e ∧ ¬ lfReq e ∧ i + 1 = len then 13
  else if lfReq e ∧ i + 1 = len then 10
  else buf.getD i 0

/-- EOI line state while byte `i` is being handshaken (line 471). -/
def txEoi (e len i : Nat) : Bool := eoiReq e && (i + 1 == len)

/-- The transmit loop (lines 462-496).  Returns the trace of
(byte placed on the data lines, EOI asserted) events and the value returned
by the C function.  `fuel` is `len - i`, so the recursion mirrors
`for(i = 0; i < len; i++)`. -/
def txRun (env : TxEnv) (buf : List Nat) (e len : Nat) : Nat → Nat → List (Nat × Bool) × Nat
  | i, 0 => ([], i)
  | i, fuel+1 =>
    let d := txByte buf e len i
    let f := txEoi e len i
    if ¬ env.nrfdOk i then ([(d, f)], i)
    else if ¬ env.ndacOk i then ([(d, f)], i)
    else
      let r := txRun env buf e len (i+1) fuel
      ((d, f) :: r.1, r.2)

/-- gpib_transmit (lines 451-500): entry quiescence test, effective length,
then the per-byte loop. -/
def gpib_transmit (env : TxEnv) (buf : List Nat) (e : Nat) : List (Nat × Bool) × Nat :=
  if ¬ env.quiescent then ([], 0)
  else
    let len := effLen buf.length e
    txRun env buf e len 0 len

/-- The effective byte stream of the spec: buffer, then CR if requested,
then LF if requested. -/
def effStream (buf : List Nat) (e : Nat) : List Nat :=
  buf ++ (if crReq e then [13] else []) ++ (if lfReq e then [10] else [])

/-- Index of the first byte whose handshake times out, among `fuel`
iterations starting at `i`. -/
def firstBad (env : TxEnv) : Nat → Nat → Option Nat
  | _, 0 => none
  | i, fuel+1 =>
    if env.nrfdOk i && env.ndacOk i then firstBad env (i+1) fuel else some i

theorem effStream_length (buf : List Nat) (e : Nat) :
    (effStream buf e).length =
      (buf.length + (if lfReq e then 1 else 0)) + (if crReq e then 1 else 0) := by
  simp only [effStream, List.length_append]
  split <;> split <;> simp

theorem effLen_eq (buf : List Nat) (e : Nat) (hn : buf.length + 2 < 256) :
    effLen buf.length e = (effStream buf e).length := by
  rw [effStream_length, effLen]
  split <;> split <;> (rw [Nat.mod_eq_of_lt (by omega)])

theorem txByte_eff (buf : List Nat) (e : Nat) (i : Nat)
    (hi : i < (effStream buf e).length) :
    txByte buf e ((effStream buf e).length) i = (effStream buf e).getD i 0 := by
  rcases hcr : crReq e <;> rcases hlf : lfReq e
  · have hes : effStream buf e = buf := by simp [effStream, hcr, hlf]
    rw [hes] at hi ⊢
    simp [txByte, hcr, hlf]
  · have hes : effStream buf e = buf ++ [10] := by simp [effStream, hcr, hlf]
    rw [hes] at hi ⊢
    have hL : (buf ++ [10]).length = buf.length + 1 := by simp
    rw [hL] at hi ⊢
    simp only [txByte, hcr, hlf]
    by_cases h : i = buf.length
    · rw [if_neg (by simp), if_neg (by simp), if_pos (by simp; omega)]
      rw [h, List.getD_append_right _ _ _ _ (by omega)]
      simp
    · rw [if_neg (by simp), if_neg (by simp), if_neg (by simp; omega)]
      rw [List.getD_append _ _ _ _ (by omega)]
  · have hes : effStream buf e = buf ++ [13] := by simp [effStream, hcr, hlf]
    rw [hes] at hi ⊢
    have hL : (buf ++ [13]).length = buf.length + 1 := by simp
    rw [hL] at hi ⊢
    simp only [txByte, hcr, hlf]
    by_cases h : i = buf.length
    · rw [if_neg (by simp), if_pos (by simp; omega)]
      rw [h, List.getD_append_right _ _ _ _ (by omega)]
      simp
    · rw [if_neg (by simp), if_neg (by simp; omega), if_neg (by simp)]
      rw [List.getD_append _ _ _ _ (by omega)]
  · have hes : effStream buf e = buf ++ [13] ++ [10] := by simp [effStream, hcr, hlf]
    rw [hes] at hi ⊢
    have hL : (buf ++ [13] ++ [10]).length = buf.length + 2 := by simp
    rw [hL] at hi ⊢
    simp only [txByte, hcr, hlf]
    by_cases h2 : i = buf.length
    · rw [if_pos (by simp; omega)]
      rw [h2, List.getD_append _ _ _ _ (by simp)]
      rw [List.getD_append_right _ _ _ _ (by omega)]
      simp
    · by_cases h1 : i = buf.length + 1
      · rw [if_neg (by simp; omega), if_neg (by simp), if_pos (by simp; omega)]
        rw [h1, List.getD_append_right _ _ _ _ (by simp)]
        simp
      · rw [if_neg (by simp; omega), if_neg (by simp), if_neg (by simp; omega)]
        rw [List.getD_append _ _ _ _ (by simp; omega), List.getD_append _ _ _ _ (by omega)]

/-- One transmit-loop iteration step: the (byte, EOI) pair of the trace. -/
def txStep (buf : List Nat) (e len i : Nat) : Nat × Bool :=
  (txByte buf e len i, txEoi e len i)

theorem txRun_all_ok (env : TxEnv) (buf : List Nat) (e len : Nat) :
    ∀ fuel i, i + fuel = len →
    (∀ j, i ≤ j → j < len → env.nrfdOk j = true ∧ env.ndacOk j = true) →
    txRun env buf e len i fuel =
      ((List.range fuel).map (fun k => txStep buf e len (i+k)), len) := by
  intro fuel
  induction fuel with
  | zero =>
    intro i hi _
    simp only [txRun, List.range_zero, List.map_nil, Prod.mk.injEq]
    exact ⟨trivial, by omega⟩
  | succ n ih =>
    intro i hi hok
    have h1 : env.nrfdOk i = true := (hok i le_rfl (by omega)).1
    have h2 : env.ndacOk i = true := (hok i le_rfl (by omega)).2
    rw [txRun]
    rw [if_neg (by simp [h1]), if_neg (by simp [h2])]
    rw [ih (i+1) (by omega) (fun j hj hj2 => hok j (by omega) hj2)]
    rw [List.range_succ_eq_map, List.map_cons, List.map_map]
    simp only [Prod.mk.injEq, Nat.add_zero]
    refine ⟨?_, trivial⟩
    congr 1
    apply List.map_congr_left
    intro a _
    simp only [Function.comp_apply, txStep]
    congr 2 <;> omega

theorem txRun_fail (env : TxEnv) (buf : List Nat) (e len : Nat) :
    ∀ fuel i j, i + fuel = len → i ≤ j → j < len →
    (env.nrfdOk j = false ∨ env.ndacOk j = false) →
    (∀ k, i ≤ k → k < j → env.nrfdOk k = true ∧ env.ndacOk k = true) →
    txRun env buf e len i fuel =
      ((List.range (j + 1 - i)).map (fun k => txStep buf e len (i+k)), j) := by
  intro fuel
  induction fuel with
  | zero => intro i j hi hij hj _ _; omega
  | succ n ih =>
    intro i j hi hij hj hbad hok
    rcases Nat.eq_or_lt_of_le hij with heq | hlt
    · subst heq
      have hr : i + 1 - i = 1 := by omega
      rw [txRun, hr]
      rcases hn : env.nrfdOk i
      · rw [if_pos (by simp [hn])]
        simp [txStep, List.range_succ]
      · have hb : env.ndacOk i = false := by
          rcases hbad with h | h
          · rw [h] at hn; exact absurd hn (by simp)
          · exact h
        rw [if_neg (by simp [hn]), if_pos (by simp [hb])]
        simp [txStep, List.range_succ]
    · have h1 : env.nrfdOk i = true := (hok i le_rfl hlt).1
      have h2 : env.ndacOk i = true := (hok i le_rfl hlt).2
      rw [txRun]
      rw [if_neg (by simp [h1]), if_neg (by simp [h2])]
      rw [ih (i+1) j (by omega) (by omega) hj hbad
        (fun k hk hk2 => hok k (by omega) hk2)]
      have hr : j + 1 - i = (j + 1 - (i+1)) + 1 := by omega
      rw [hr, List.range_succ_eq_map, List.map_cons, List.map_map]
      simp only [Prod.mk.injEq, Nat.add_zero]
      refine ⟨?_, trivial⟩
      congr 1
      apply List.map_congr_left
      intro a _
      simp only [Function.comp_apply, txStep]
      congr 2 <;> omega

theorem take_eq_range_map (l : List Nat) (m : Nat) (hm : m ≤ l.length) :
    l.take m = (List.range m).map (fun k => l.getD k 0) := by
  apply List.ext_getElem
  · simp [hm]
  · intro n h1 h2
    simp only [List.getElem_take, List.getElem_map, List.getElem_range]
    rw [List.getD_eq_getElem]

theorem bool_pair_not_ok (a b : Bool) (h : ¬ (a = true ∧ b = true)) :
    a = false ∨ b = false := by
  cases a <;> cases b <;> simp_all

/-- C1: for every `gpib_transmit(buf, n, end)` call on a quiescent bus
(no uint8_t wrap of the length): (1) the bytes placed on the data lines are
a prefix of `buf ++ CR? ++ LF?`; (2) if every NRFD/NDAC handshake
succeeds, the placed stream is exactly that effective stream and the
returned count is its length, i.e. `n` plus one per requested CR/LF;
(3) if the handshake of byte `j` is the first to time out, the returned
count is `j`, the number of fully handshaken bytes, strictly smaller than
the effective length; (4) EOI is asserted exactly on the last byte of the
effective stream when EOI is requested. -/
theorem C1_gpib_transmit_spec (env : TxEnv) (buf : List Nat) (e : Nat)
    (hq : env.quiescent = true) (hn : buf.length + 2 < 256) :
    ((gpib_transmit env buf e).1.map Prod.fst =
        (effStream buf e).take (gpib_transmit env buf e).1.length)
    ∧ ((∀ j, j < (effStream buf e).length →
          env.nrfdOk j = true ∧ env.ndacOk j = true) →
        (gpib_transmit env buf e).2 = (effStream buf e).length
        ∧ (gpib_transmit env buf e).1.map Prod.fst = effStream buf e)
    ∧ (∀ j, j < (effStream buf e).length →
        (env.nrfdOk j = false ∨ env.ndacOk j = false) →
        (∀ k, k < j → env.nrfdOk k = true ∧ env.ndacOk k = true) →
        (gpib_transmit env buf e).2 = j
        ∧ (gpib_transmit env buf e).2 < (effStream buf e).length)
    ∧ ((gpib_transmit env buf e).1.map Prod.snd =
        (List.range (gpib_transmit env buf e).1.length).map
          (fun j => eoiReq e && (j + 1 == (effStream buf e).length))) := by
  have hgt : gpib_transmit env buf e =
      txRun env buf e ((effStream buf e).length) 0 ((effStream buf e).length) := by
    rw [gpib_transmit, if_neg (by simp [hq])]
    rw [effLen_eq buf e hn]
  by_cases hall : ∀ j, j < (effStream buf e).length →
      env.nrfdOk j = true ∧ env.ndacOk j = true
  · rw [hgt, txRun_all_ok env buf e _ _ 0 (by omega) (fun j _ hj => hall j hj)]
    have hmap : ((List.range (effStream buf e).length).map
          (fun k => txStep buf e (effStream buf e).length (0+k))).map Prod.fst =
        effStream buf e := by
      apply List.ext_getElem
      · simp
      · intro n h1 h2
        simp only [List.map_map, List.getElem_map, List.getElem_range,
          Function.comp_apply, txStep, Nat.zero_add]
        rw [txByte_eff buf e n (by simpa using h2), List.getD_eq_getElem]
    refine ⟨?_, fun _ => ⟨rfl, hmap⟩, ?_, ?_⟩
    · rw [hmap]
      have hlen : ((List.range (effStream buf e).length).map
          (fun k => txStep buf e (effStream buf e).length (0+k))).length =
          (effStream buf e).length := by simp
      rw [hlen, List.take_length]
    · intro j hj hbad _
      rcases hall j hj with ⟨h1, h2⟩
      rcases hbad with hb | hb
      · rw [h1] at hb; exact absurd hb (by simp)
      · rw [h2] at hb; exact absurd hb (by simp)
    · rw [List.map_map]
      have hlen : ((List.range (effStream buf e).length).map
          (fun k => txStep buf e (effStream buf e).length (0+k))).length =
          (effStream buf e).length := by simp
      rw [hlen]
      apply List.map_congr_left
      intro a _
      simp [txStep, txEoi]
  · have hP : ∃ j, j < (effStream buf e).length ∧
        (env.nrfdOk j = false ∨ env.ndacOk j = false) := by
      push_neg at hall
      rcases hall with ⟨j, hj, hbad⟩
      exact ⟨j, hj, bool_pair_not_ok _ _ (fun hc => hbad hc.1 hc.2)⟩
    classical
    let j0 := Nat.find hP
    have hj0 := Nat.find_spec hP
    have hmin : ∀ k, k < j0 → env.nrfdOk k = true ∧ env.ndacOk k = true := by
      intro k hk
      have hnk := Nat.find_min hP hk
      have hkL : k < (effStream buf e).length := lt_trans hk hj0.1
      rcases h1 : env.nrfdOk k <;> rcases h2 : env.ndacOk k
      · exact absurd ⟨hkL, Or.inl h1⟩ hnk
      · exact absurd ⟨hkL, Or.inl h1⟩ hnk
      · exact absurd ⟨hkL, Or.inr h2⟩ hnk
      · exact ⟨rfl, rfl⟩
    have hrun := txRun_fail env buf e ((effStream buf e).length)
      ((effStream buf e).length) 0 j0 (by omega) (by omega) hj0.1 hj0.2
      (fun k _ hk => hmin k hk)
    rw [hgt, hrun]
    have hlen : ((List.range (j0 + 1 - 0)).map
        (fun k => txStep buf e (effStream buf e).length (0+k))).length = j0 + 1 := by
      simp
    refine ⟨?_, ?_, ?_, ?_⟩
    · rw [hlen, List.map_map]
      rw [take_eq_range_map _ _ (by omega)]
      have h10 : j0 + 1 - 0 = j0 + 1 := by omega
      rw [h10]
      apply List.map_congr_left
      intro a ha
      simp only [List.mem_range] at ha
      simp only [Function.comp_apply, txStep, Nat.zero_add]
      exact txByte_eff buf e a (by omega)
    · intro hok
      rcases hok j0 hj0.1 with ⟨h1, h2⟩
      rcases hj0.2 with hb | hb
      · rw [h1] at hb; exact absurd hb (by simp)
      · rw [h2] at hb; exact absurd hb (by simp)
    · intro j hj hbad hok
      have hle1 : j0 ≤ j := Nat.find_min' hP ⟨hj, hbad⟩
      have hle2 : ¬ (j0 < j) := by
        intro hlt
        rcases hok j0 hlt with ⟨h1, h2⟩
        rcases hj0.2 with hb | hb
        · rw [h1] at hb; exact absurd hb (by simp)
        · rw [h2] at hb; exact absurd hb (by simp)
      have hjj : j0 = j := by omega
      refine ⟨hjj, ?_⟩
      rw [← hjj] at hj
      exact hj
    · rw [hlen, List.map_map]
      apply List.map_congr_left
      intro a _
      simp [txStep, txEoi]

/-- Transmit environment where the bus is quiescent and every handshake
succeeds. -/
def txEnvAllOk : TxEnv := ⟨true, fun _ => true, fun _ => true⟩

theorem C1_gpib_transmit_spec_witness :
    txEnvAllOk.quiescent = true ∧ ([65] : List Nat).length + 2 < 256 ∧
    (gpib_transmit txEnvAllOk [65] 7).2 = (effStream [65] 7).length :=
  ⟨by decide, by decide,
    ((C1_gpib_transmit_spec txEnvAllOk [65] 7 (by decide) (by decide)).2.1
      (fun _ _ => ⟨rfl, rfl⟩)).1⟩

/-! ## gpib_receive (hp3478-ext.c lines 406-449)

Environment oracle: `davFall k` is the outcome of the "waiting for falling
edge" loop of iteration `k` (`none` = the 200 ms timeout expired, otherwise
the data byte read by `data_get()` together with the state of the EOI line
sampled at line 427); `davRise k` tells whether the "waiting for rising
edge" loop of iteration `k` completed before its deadline.  Iteration `k`
stores into `buf[k]`, so oracle index and buffer index coincide. -/

structure RxEnv where
  davFall : Nat → Option (Nat × Bool)
  davRise : Nat → Bool

/-- Stop bits collected during one receive iteration (lines 427-434):
`do_stop` is 0 at the start of every iteration because the loop exits as
soon as it becomes non-zero. -/
def rxStop (stop c : Nat) (eoiLine : Bool) : Nat :=
  (if eoiLine = true ∧ eoiReq stop = true then GPIB_END_EOI else 0) +
  ((if c = 10 ∧ lfReq stop = true then GPIB_END_LF else 0) +
   (if c = 13 ∧ crReq stop = true then GPIB_END_CR else 0))

/-- Stop bits that iteration `j` of the environment would produce. -/
def rxStopAt (env : RxEnv) (stop j : Nat) : Nat :=
  match env.davFall j with
  | none => 0
  | some (c, eoiLine) => rxStop stop c eoiLine

/-- The receive do-while loop (lines 414-445).  State: `idx` is the C
variable `index` (also the oracle position), `ws` the list of
(buffer index, byte) stores performed so far.  Returns (return value,
stores, `*n_received`).  `fuel` only bounds the recursion; it never runs
out when the function is entered through `gpib_receive`. -/
def rxRun (env : RxEnv) (stop bufSize : Nat) :
    Nat → Nat → List (Nat × Nat) → Nat × List (Nat × Nat) × Nat
  | 0, idx, ws => (GPIB_END_BUF, ws, idx)
  | fuel+1, idx, ws =>
    match env.davFall idx with
    | none => (0, ws, idx)
    | some (c, eoiLine) =>
      let ds := rxStop stop c eoiLine
      let ws' := ws ++ [(idx, c)]
      if env.davRise idx = false then (0, ws', idx+1)
      else if idx+1 < bufSize ∧ ds = 0 then rxRun env stop bufSize fuel (idx+1) ws'
      else if ds ≠ 0 then (ds, ws', idx+1)
      else (GPIB_END_BUF, ws', idx+1)

/-- gpib_receive (lines 406-449). -/
def gpib_receive (env : RxEnv) (bufSize stop : Nat) : Nat × List (Nat × Nat) × Nat :=
  rxRun env stop bufSize (bufSize+1) 0 []

theorem rxRun_spec (env : RxEnv) (stop bufSize : Nat) :
    ∀ fuel idx ws, idx < bufSize → idx + fuel = bufSize + 1 →
    ws.map Prod.fst = List.range idx →
    (let out := rxRun env stop bufSize fuel idx ws
     (out.2.2 = out.2.1.length ∧ out.2.1.map Prod.fst = List.range out.2.2
        ∧ out.2.2 ≤ bufSize)
     ∧ (out.1 = 0 → ∃ j, j < bufSize ∧
          (env.davFall j = none ∨ env.davRise j = false))
     ∧ (out.1 = GPIB_END_BUF → out.2.2 = bufSize
          ∧ (∀ j, idx ≤ j → j < bufSize → rxStopAt env stop j = 0))
     ∧ (out.1 ≠ 0 → out.1 ≠ GPIB_END_BUF → ∃ m, idx ≤ m ∧ m < bufSize
          ∧ out.1 = rxStopAt env stop m ∧ rxStopAt env stop m ≠ 0
          ∧ (∀ j, idx ≤ j → j < m → rxStopAt env stop j = 0)
          ∧ out.2.2 = m + 1)) := by
  intro fuel
  induction fuel with
  | zero => intro idx ws h1 h2 _; omega
  | succ n ih =>
    intro idx ws hidx hfuel hws
    rcases hf : env.davFall idx with _ | ⟨c, eoiLine⟩
    · have heq : rxRun env stop bufSize (n+1) idx ws = (0, ws, idx) := by
        simp only [rxRun, hf]
      rw [heq]
      refine ⟨?_, ?_, ?_, ?_⟩
      · refine ⟨?_, hws, by show idx ≤ bufSize; omega⟩
        have : ws.length = (ws.map Prod.fst).length := by simp
        rw [this, hws, List.length_range]
      · intro _
        exact ⟨idx, hidx, Or.inl hf⟩
      · intro hb
        exact absurd hb (by simp [GPIB_END_BUF])
      · intro hnz _
        exact absurd rfl hnz
    · have hws' : (ws ++ [(idx, c)]).map Prod.fst = List.range (idx+1) := by
        rw [List.map_append, hws, List.range_succ]
        rfl
      have hlen' : (ws ++ [(idx, c)]).length = idx + 1 := by
        have : (ws ++ [(idx, c)]).length = ((ws ++ [(idx, c)]).map Prod.fst).length := by
          simp
        rw [this, hws', List.length_range]
      rcases hr : env.davRise idx with _ | _
      · -- rising-edge wait timed out
        have heq : rxRun env stop bufSize (n+1) idx ws = (0, ws ++ [(idx, c)], idx+1) := by
          simp only [rxRun, hf]
          rw [if_pos hr]
        rw [heq]
        refine ⟨⟨hlen'.symm, hws', by show idx + 1 ≤ bufSize; omega⟩, ?_, ?_, ?_⟩
        · intro _
          exact ⟨idx, hidx, Or.inr hr⟩
        · intro hb
          exact absurd hb (by simp [GPIB_END_BUF])
        · intro hnz _
          exact absurd rfl hnz
      · -- byte accepted
        by_cases hcont : idx + 1 < bufSize ∧ rxStop stop c eoiLine = 0
        · have heq : rxRun env stop bufSize (n+1) idx ws =
              rxRun env stop bufSize n (idx+1) (ws ++ [(idx, c)]) := by
            simp only [rxRun, hf]
            rw [if_neg (by simp [hr]), if_pos hcont]
          have hrec := ih (idx+1) (ws ++ [(idx, c)]) hcont.1 (by omega) hws'
          rw [heq]
          refine ⟨hrec.1, hrec.2.1, ?_, ?_⟩
          · intro hb
            rcases hrec.2.2.1 hb with ⟨hfull, hstops⟩
            refine ⟨hfull, ?_⟩
            intro j hj1 hj2
            rcases Nat.eq_or_lt_of_le hj1 with hje | hjl
            · simp only [← hje, rxStopAt, hf]
              exact hcont.2
            · exact hstops j hjl hj2
          · intro hnz hnb
            rcases hrec.2.2.2 hnz hnb with ⟨m, hm1, hm2, hm3, hm4, hm5, hm6⟩
            refine ⟨m, by omega, hm2, hm3, hm4, ?_, hm6⟩
            intro j hj1 hj2
            rcases Nat.eq_or_lt_of_le hj1 with hje | hjl
            · simp only [← hje, rxStopAt, hf]
              exact hcont.2
            · exact hm5 j hjl hj2
        · -- loop exits after this byte
          by_cases hds : rxStop stop c eoiLine = 0
          · -- buffer full, no stop condition
            have hfull : idx + 1 = bufSize := by
              rcases Nat.lt_or_ge (idx+1) bufSize with h | h
              · exact absurd ⟨h, hds⟩ hcont
              · omega
            have heq : rxRun env stop bufSize (n+1) idx ws =
                (GPIB_END_BUF, ws ++ [(idx, c)], idx+1) := by
              simp only [rxRun, hf]
              rw [if_neg (by simp [hr]), if_neg hcont, if_neg (by simp [hds])]
            rw [heq]
            refine ⟨⟨hlen'.symm, hws', by show idx + 1 ≤ bufSize; omega⟩, ?_, ?_, ?_⟩
            · intro h0
              exact absurd h0 (by simp [GPIB_END_BUF])
            · intro _
              refine ⟨hfull, ?_⟩
              intro j hj1 hj2
              have hj : j = idx := by omega
              simp only [hj, rxStopAt, hf]
              exact hds
            · intro _ hnb
              exact absurd rfl hnb
          · -- stop condition seen
            have heq : rxRun env stop bufSize (n+1) idx ws =
                (rxStop stop c eoiLine, ws ++ [(idx, c)], idx+1) := by
              simp only [rxRun, hf]
              rw [if_neg (by simp [hr]), if_neg hcont, if_pos hds]
            rw [heq]
            refine ⟨⟨hlen'.symm, hws', by show idx + 1 ≤ bufSize; omega⟩, ?_, ?_, ?_⟩
            · intro h0
              exact absurd h0 hds
            · intro hb
              have hb' : rxStop stop c eoiLine = GPIB_END_BUF := hb
              have hlt : rxStop stop c eoiLine < 8 := by
                rw [rxStop]
                split <;> split <;> split <;>
                  simp [GPIB_END_EOI, GPIB_END_LF, GPIB_END_CR]
              rw [hb'] at hlt
              exact absurd hlt (by simp [GPIB_END_BUF])
            · intro _ _
              refine ⟨idx, le_rfl, hidx, ?_, ?_, ?_, rfl⟩
              · simp only [rxStopAt, hf]
              · simp only [rxStopAt, hf]
                exact hds
              · intro j hj1 hj2
                omega

/-- C2: gpib_receive returns GPIB_END_BUF only when buf_size bytes were
stored and no requested stop condition (EOI, LF, CR) was produced by any of
them; it returns 0 (timeout) only when some DAV-line wait exceeded its
200 ms deadline; otherwise the result is the non-zero disjunction of the
stop conditions seen on the final byte among those requested, with all
earlier bytes producing none. -/
theorem C2_gpib_receive_result (env : RxEnv) (bufSize stop : Nat) (hb : 1 ≤ bufSize) :
    ((gpib_receive env bufSize stop).1 = GPIB_END_BUF →
       (gpib_receive env bufSize stop).2.2 = bufSize
       ∧ ∀ j, j < bufSize → rxStopAt env stop j = 0)
    ∧ ((gpib_receive env bufSize stop).1 = 0 →
       ∃ j, j < bufSize ∧ (env.davFall j = none ∨ env.davRise j = false))
    ∧ ((gpib_receive env bufSize stop).1 ≠ 0 →
       (gpib_receive env bufSize stop).1 ≠ GPIB_END_BUF →
       ∃ m, m < bufSize ∧ (gpib_receive env bufSize stop).1 = rxStopAt env stop m
         ∧ rxStopAt env stop m ≠ 0 ∧ (∀ j, j < m → rxStopAt env stop j = 0)
         ∧ (gpib_receive env bufSize stop).2.2 = m + 1) := by
  have h := rxRun_spec env stop bufSize (bufSize+1) 0 [] (by omega) (by omega) (by simp)
  refine ⟨fun hbuf => ?_, h.2.1, fun h1 h2 => ?_⟩
  · rcases h.2.2.1 hbuf with ⟨hf, hs⟩
    exact ⟨hf, fun j hj => hs j (by omega) hj⟩
  · rcases h.2.2.2 h1 h2 with ⟨m, _, hm2, hm3, hm4, hm5, hm6⟩
    exact ⟨m, hm2, hm3, hm4, fun j hj => hm5 j (by omega) hj, hm6⟩

/-- Environment where every handshake succeeds and every byte is 65. -/
def rxEnvAllOk : RxEnv := ⟨fun _ => some (65, false), fun _ => true⟩

theorem C2_gpib_receive_result_witness :
    1 ≤ 1 ∧
    (((gpib_receive rxEnvAllOk 1 0).1 = GPIB_END_BUF →
       (gpib_receive rxEnvAllOk 1 0).2.2 = 1
       ∧ ∀ j, j < 1 → rxStopAt rxEnvAllOk 0 j = 0)
    ∧ ((gpib_receive rxEnvAllOk 1 0).1 = 0 →
       ∃ j, j < 1 ∧ (rxEnvAllOk.davFall j = none ∨ rxEnvAllOk.davRise j = false))
    ∧ ((gpib_receive rxEnvAllOk 1 0).1 ≠ 0 →
       (gpib_receive rxEnvAllOk 1 0).1 ≠ GPIB_END_BUF →
       ∃ m, m < 1 ∧ (gpib_receive rxEnvAllOk 1 0).1 = rxStopAt rxEnvAllOk 0 m
         ∧ rxStopAt rxEnvAllOk 0 m ≠ 0 ∧ (∀ j, j < m → rxStopAt rxEnvAllOk 0 j = 0)
         ∧ (gpib_receive rxEnvAllOk 1 0).2.2 = m + 1)) :=
  ⟨by decide, C2_gpib_receive_result rxEnvAllOk 1 0 (by decide)⟩

/-- C10: on every return path of gpib_receive with buf_size ≥ 1, the bytes
stored land at the distinct indices 0 .. n-1 of the destination buffer with
n ≤ buf_size (so at most buf_size bytes are written), and `*n_received` is
assigned exactly the number of bytes stored, on the normal exits and on
both timeout paths alike. -/
theorem C10_gpib_receive_writes (env : RxEnv) (bufSize stop : Nat) (hb : 1 ≤ bufSize) :
    (gpib_receive env bufSize stop).2.2 = (gpib_receive env bufSize stop).2.1.length
    ∧ (gpib_receive env bufSize stop).2.1.map Prod.fst =
        List.range (gpib_receive env bufSize stop).2.2
    ∧ (gpib_receive env bufSize stop).2.2 ≤ bufSize := by
  have h := rxRun_spec env stop bufSize (bufSize+1) 0 [] (by omega) (by omega) (by simp)
  exact h.1

/-- Environment whose second DAV-release wait times out. -/
def rxEnvRiseTimeout : RxEnv := ⟨fun _ => some (66, false), fun k => k == 0⟩

theorem C10_gpib_receive_writes_witness :
    1 ≤ 3 ∧
    ((gpib_receive rxEnvRiseTimeout 3 0).2.2 =
        (gpib_receive rxEnvRiseTimeout 3 0).2.1.length
    ∧ (gpib_receive rxEnvRiseTimeout 3 0).2.1.map Prod.fst =
        List.range (gpib_receive rxEnvRiseTimeout 3 0).2.2
    ∧ (gpib_receive rxEnvRiseTimeout 3 0).2.2 ≤ 3) :=
  ⟨by decide, C10_gpib_receive_writes rxEnvRiseTimeout 3 0 (by decide)⟩


/-! ## Readings (struct hp3478_reading, lines 1216-1220)

`value` is an `int32_t`, `dot` a `uint8_t`, `exp` an `int8_t`; all
comparison arithmetic below stays within `int32_t` range on the claimed
domain (|value| ≤ 9999999: the scaling loops exit before exceeding 10^8). -/

structure Reading where
  value : Int
  dot : Nat
  exp : Int
deriving DecidableEq

/-- The alignment key `exp + dot` of a reading (its scale). -/
def scaleE (r : Reading) : Int := r.exp + (r.dot : Int)

/-- Numeric denotation of a reading: `value * 10 ^ (exp + dot)` (a uniform
rescaling of the physical value, adequate for comparison and difference
statements). -/
def nuQ (r : Reading) : Rat := (r.value : Rat) * (10 : Rat) ^ scaleE r

/-- Non-negative comparison loop of hp3478_cmp_readings (lines 2223-2232);
`g` is the remaining exponent gap `e1 - e2`, `rr2` the fixed comparand. -/
def cmpStepsPos (rr2 : Int) : Int → Nat → Int
  | rr1, 0 => if rr2 < rr1 then 1 else if rr1 = rr2 then 0 else -1
  | rr1, g+1 => if rr2 < rr1 then 1 else cmpStepsPos rr2 (rr1 * 10) g

/-- Negative comparison loop (lines 2234-2242). -/
def cmpStepsNeg (rr2 : Int) : Int → Nat → Int
  | rr1, 0 => if rr1 < rr2 then -1 else if rr1 = rr2 then 0 else 1
  | rr1, g+1 => if rr1 < rr2 then -1 else cmpStepsNeg rr2 (rr1 * 10) g

/-- hp3478_cmp_readings (lines 2203-2243).  The swap of lines 2215-2221
becomes the `e1 < e2` branch with the result negated (`res_sign = -1`). -/
def hp3478_cmp_readings (r1 r2 : Reading) : Int :=
  if r1.value < 0 ∧ 0 ≤ r2.value then -1
  else if r2.value < 0 ∧ 0 ≤ r1.value then 1
  else if scaleE r1 < scaleE r2 then
    if 0 ≤ r2.value then - cmpStepsPos r1.value r2.value (scaleE r2 - scaleE r1).toNat
    else - cmpStepsNeg r1.value r2.value (scaleE r2 - scaleE r1).toNat
  else
    if 0 ≤ r1.value then cmpStepsPos r2.value r1.value (scaleE r1 - scaleE r2).toNat
    else cmpStepsNeg r2.value r1.value (scaleE r1 - scaleE r2).toNat

/-- Three-way comparison sign over the integers. -/
def sign3 (a b : Int) : Int := if b < a then 1 else if a = b then 0 else -1

/-- Three-way comparison sign over the rationals. -/
def sign3q (a b : Rat) : Int := if b < a then 1 else if a = b then 0 else -1

theorem cmpStepsPos_eq (rr2 : Int) (h2 : 0 ≤ rr2) :
    ∀ g rr1, 0 ≤ rr1 → cmpStepsPos rr2 rr1 g = sign3 (rr1 * 10 ^ g) rr2 := by
  intro g
  induction g with
  | zero => intro rr1 _; simp [cmpStepsPos, sign3]
  | succ n ih =>
    intro rr1 h1
    rw [cmpStepsPos]
    by_cases h : rr2 < rr1
    · have hp : (1:Int) ≤ 10 ^ (n+1) := one_le_pow₀ (by norm_num)
      have hlt : rr2 < rr1 * 10 ^ (n+1) := by nlinarith
      rw [if_pos h, sign3, if_pos hlt]
    · rw [if_neg h, ih (rr1 * 10) (by positivity)]
      have he : rr1 * 10 * 10 ^ n = rr1 * 10 ^ (n+1) := by ring
      rw [he]

theorem cmpStepsNeg_eq (rr2 : Int) (h2 : rr2 < 0) :
    ∀ g rr1, rr1 < 0 → cmpStepsNeg rr2 rr1 g = sign3 (rr1 * 10 ^ g) rr2 := by
  intro g
  induction g with
  | zero =>
    intro rr1 _
    rw [cmpStepsNeg, sign3, pow_zero, mul_one]
    rcases lt_trichotomy rr1 rr2 with h | h | h
    · rw [if_pos h, if_neg (by omega), if_neg (by omega)]
    · rw [if_neg (by omega), if_pos h, if_neg (by omega), if_pos h]
    · rw [if_neg (by omega), if_neg (by omega), if_pos h]
  | succ n ih =>
    intro rr1 h1
    rw [cmpStepsNeg]
    by_cases h : rr1 < rr2
    · have hp : (1:Int) ≤ 10 ^ (n+1) := one_le_pow₀ (by norm_num)
      have hlt : rr1 * 10 ^ (n+1) < rr2 := by nlinarith
      rw [if_pos h, sign3, if_neg (by omega), if_neg (by omega)]
    · rw [if_neg h, ih (rr1 * 10) (by nlinarith)]
      have he : rr1 * 10 * 10 ^ n = rr1 * 10 ^ (n+1) := by ring
      rw [he]

theorem sign3_cast (v1 v2 e1 e2 : Int) (h : e2 ≤ e1) :
    sign3 (v1 * 10 ^ (e1 - e2).toNat) v2 =
      sign3q ((v1 : Rat) * (10 : Rat) ^ e1) ((v2 : Rat) * (10 : Rat) ^ e2) := by
  have hpos : (0:Rat) < (10 : Rat) ^ e2 := zpow_pos (by norm_num) e2
  have hA : (v1 : Rat) * (10 : Rat) ^ e1 =
      ((v1 * 10 ^ (e1 - e2).toNat : Int) : Rat) * (10 : Rat) ^ e2 := by
    have hsplit : (10:Rat) ^ e1 = (10:Rat) ^ e2 * (10:Rat) ^ ((e1 - e2).toNat) := by
      rw [← zpow_natCast (10:Rat) ((e1 - e2).toNat),
        ← zpow_add₀ (by norm_num : (10:Rat) ≠ 0)]
      congr 1
      omega
    rw [hsplit]
    push_cast
    ring
  have hltIff : ((v2:Rat) * (10:Rat) ^ e2 <
      ((v1 * 10 ^ (e1 - e2).toNat : Int) : Rat) * (10:Rat) ^ e2) ↔
      v2 < v1 * 10 ^ (e1 - e2).toNat := by
    rw [mul_lt_mul_right hpos]
    exact_mod_cast Iff.rfl
  have heqIff : (((v1 * 10 ^ (e1 - e2).toNat : Int) : Rat) * (10:Rat) ^ e2 =
      (v2:Rat) * (10:Rat) ^ e2) ↔ v1 * 10 ^ (e1 - e2).toNat = v2 := by
    constructor
    · intro hq
      have := mul_right_cancel₀ (ne_of_gt hpos) hq
      exact_mod_cast this
    · intro hq
      rw [hq]
  rw [sign3, sign3q]
  simp only [hA]
  rcases lt_trichotomy v2 (v1 * 10 ^ (e1 - e2).toNat) with hc | hc | hc
  · rw [if_pos hc, if_pos (hltIff.2 hc)]
  · rw [if_neg (by omega), if_pos (by omega),
      if_neg (by rw [hltIff]; omega), if_pos (heqIff.2 (by omega))]
  · rw [if_neg (by omega), if_neg (by omega),
      if_neg (by rw [hltIff]; omega), if_neg (by rw [heqIff]; omega)]

theorem sign3_cast_nu (a b : Reading) (h : scaleE b ≤ scaleE a) :
    sign3 (a.value * 10 ^ ((scaleE a - scaleE b).toNat)) b.value =
      sign3q (nuQ a) (nuQ b) :=
  sign3_cast a.value b.value (scaleE a) (scaleE b) h

theorem sign3q_antisymm (a b : Rat) : sign3q a b = - sign3q b a := by
  rw [sign3q, sign3q]
  rcases lt_trichotomy a b with h | h | h
  · rw [if_neg (by linarith), if_neg (ne_of_lt h), if_pos h]
  · rw [if_neg (by rw [h]; exact lt_irrefl b), if_pos h,
      if_neg (by rw [h]; exact lt_irrefl b), if_pos h.symm]
    norm_num
  · rw [if_pos h, if_neg (by linarith), if_neg (ne_of_lt h)]
    norm_num

theorem nuQ_neg_lt_nonneg (a b : Reading) (h1 : a.value < 0) (h2 : 0 ≤ b.value) :
    nuQ a < nuQ b := by
  have ha : nuQ a < 0 :=
    mul_neg_of_neg_of_pos (by exact_mod_cast h1) (zpow_pos (by norm_num) _)
  have hb : 0 ≤ nuQ b :=
    mul_nonneg (by exact_mod_cast h2) (le_of_lt (zpow_pos (by norm_num) _))
  linarith

theorem hp3478_cmp_readings_eq_sign (r1 r2 : Reading) :
    hp3478_cmp_readings r1 r2 = sign3q (nuQ r1) (nuQ r2) := by
  rw [hp3478_cmp_readings]
  by_cases hmix1 : r1.value < 0 ∧ 0 ≤ r2.value
  · rw [if_pos hmix1]
    have h := nuQ_neg_lt_nonneg r1 r2 hmix1.1 hmix1.2
    rw [sign3q, if_neg (by linarith), if_neg (ne_of_lt h)]
  · rw [if_neg hmix1]
    by_cases hmix2 : r2.value < 0 ∧ 0 ≤ r1.value
    · rw [if_pos hmix2]
      have h := nuQ_neg_lt_nonneg r2 r1 hmix2.1 hmix2.2
      rw [sign3q, if_pos h]
    · rw [if_neg hmix2]
      have hsame : (0 ≤ r1.value ∧ 0 ≤ r2.value) ∨ (r1.value < 0 ∧ r2.value < 0) := by
        rcases le_or_lt 0 r1.value with h | h <;> rcases le_or_lt 0 r2.value with h' | h'
        · exact Or.inl ⟨h, h'⟩
        · exact absurd ⟨h', h⟩ hmix2
        · exact absurd ⟨h, h'⟩ hmix1
        · exact Or.inr ⟨h, h'⟩
      by_cases hee : scaleE r1 < scaleE r2
      · rw [if_pos hee]
        rcases hsame with ⟨h1, h2⟩ | ⟨h1, h2⟩
        · rw [if_pos h2, cmpStepsPos_eq r1.value h1 _ r2.value h2,
            sign3_cast_nu r2 r1 (le_of_lt hee), sign3q_antisymm, neg_neg]
        · rw [if_neg (by omega), cmpStepsNeg_eq r1.value h1 _ r2.value h2,
            sign3_cast_nu r2 r1 (le_of_lt hee), sign3q_antisymm, neg_neg]
      · rw [if_neg hee]
        rcases hsame with ⟨h1, h2⟩ | ⟨h1, h2⟩
        · rw [if_pos h1, cmpStepsPos_eq r2.value h2 _ r1.value h1,
            sign3_cast_nu r1 r2 (by omega)]
        · rw [if_neg (by omega), cmpStepsNeg_eq r2.value h2 _ r1.value h1,
            sign3_cast_nu r1 r2 (by omega)]

theorem sign3q_spec (x y : Rat) :
    (sign3q x y = 0 ↔ x = y) ∧ (sign3q x y = 1 ↔ y < x) ∧ (sign3q x y = -1 ↔ x < y) := by
  rw [sign3q]
  rcases lt_trichotomy x y with h | h | h
  · rw [if_neg (by linarith), if_neg (ne_of_lt h)]
    refine ⟨?_, ?_, ?_⟩ <;> constructor <;> intro hh
    · norm_num at hh
    · exact absurd hh (ne_of_lt h)
    · norm_num at hh
    · linarith
    · exact h
    · rfl
  · rw [if_neg (by rw [h]; exact lt_irrefl y), if_pos h]
    refine ⟨?_, ?_, ?_⟩ <;> constructor <;> intro hh
    · exact h
    · rfl
    · norm_num at hh
    · rw [h] at hh; exact absurd hh (lt_irrefl y)
    · norm_num at hh
    · rw [h] at hh; exact absurd hh (lt_irrefl y)
  · rw [if_pos h]
    refine ⟨?_, ?_, ?_⟩ <;> constructor <;> intro hh
    · norm_num at hh
    · exact absurd hh.symm (ne_of_lt h)
    · exact h
    · rfl
    · norm_num at hh
    · linarith

/-- C4: hp3478_cmp_readings is a total order on the non-overload reading
domain (exp ≠ 9, |value| ≤ 9999999, dot ≤ 6): antisymmetric
(`cmp a b = -cmp b a`), transitive, zero exactly on readings denoting the
same numeric value, with its sign agreeing with the sign of the numeric
difference, and any negative-value reading below any non-negative one. -/
theorem C4_cmp_readings_total_order (a b c : Reading)
    (ha : -9999999 ≤ a.value ∧ a.value ≤ 9999999 ∧ a.dot ≤ 6 ∧ a.exp ≠ 9)
    (hb : -9999999 ≤ b.value ∧ b.value ≤ 9999999 ∧ b.dot ≤ 6 ∧ b.exp ≠ 9)
    (hc : -9999999 ≤ c.value ∧ c.value ≤ 9999999 ∧ c.dot ≤ 6 ∧ c.exp ≠ 9) :
    (hp3478_cmp_readings a b = - hp3478_cmp_readings b a)
    ∧ (hp3478_cmp_readings a b = 0 ↔ nuQ a = nuQ b)
    ∧ (hp3478_cmp_readings a b = 1 ↔ nuQ b < nuQ a)
    ∧ (hp3478_cmp_readings a b = -1 ↔ nuQ a < nuQ b)
    ∧ (hp3478_cmp_readings a b ≤ 0 → hp3478_cmp_readings b c ≤ 0 →
         hp3478_cmp_readings a c ≤ 0)
    ∧ (a.value < 0 → 0 ≤ b.value → hp3478_cmp_readings a b = -1) := by
  have hab := hp3478_cmp_readings_eq_sign a b
  have hba := hp3478_cmp_readings_eq_sign b a
  have hbc := hp3478_cmp_readings_eq_sign b c
  have hac := hp3478_cmp_readings_eq_sign a c
  have sab := sign3q_spec (nuQ a) (nuQ b)
  have sbc := sign3q_spec (nuQ b) (nuQ c)
  have sac := sign3q_spec (nuQ a) (nuQ c)
  refine ⟨?_, ?_, ?_, ?_, ?_, ?_⟩
  · rw [hab, hba, sign3q_antisymm]
  · rw [hab]; exact sab.1
  · rw [hab]; exact sab.2.1
  · rw [hab]; exact sab.2.2
  · intro h1 h2
    rw [hab] at h1
    rw [hbc] at h2
    rw [hac]
    have hle1 : nuQ a ≤ nuQ b := by
      rcases lt_trichotomy (nuQ a) (nuQ b) with h | h | h
      · linarith
      · linarith [le_of_eq h]
      · rw [(sab.2.1).2 h] at h1; omega
    have hle2 : nuQ b ≤ nuQ c := by
      rcases lt_trichotomy (nuQ b) (nuQ c) with h | h | h
      · linarith
      · linarith [le_of_eq h]
      · rw [(sbc.2.1).2 h] at h2; omega
    rcases lt_or_eq_of_le (le_trans hle1 hle2) with h | h
    · rw [(sac.2.2).2 h]
      omega
    · rw [sac.1.2 h]
  · intro h1 h2
    rw [hab]
    exact (sab.2.2).2 (nuQ_neg_lt_nonneg a b h1 h2)

theorem C4_cmp_readings_total_order_witness :
    ((-9999999 : Int) ≤ 123 ∧ (123 : Int) ≤ 9999999 ∧ (1 : Nat) ≤ 6 ∧ (0 : Int) ≠ 9) ∧
    (hp3478_cmp_readings ⟨123, 1, 0⟩ ⟨-5, 2, 3⟩ =
      - hp3478_cmp_readings ⟨-5, 2, 3⟩ ⟨123, 1, 0⟩) :=
  ⟨⟨by decide, by decide, by decide, by decide⟩,
    (C4_cmp_readings_total_order ⟨123, 1, 0⟩ ⟨-5, 2, 3⟩ ⟨7, 0, 0⟩
      ⟨by decide, by decide, by decide, by decide⟩
      ⟨by decide, by decide, by decide, by decide⟩
      ⟨by decide, by decide, by decide, by decide⟩).1⟩



/-! ## hp3478_rel_handle_data (lines 1662-1690) -/

theorem tmod_neg_left (a b : Int) : (-a).tmod b = -(a.tmod b) := by
  rw [Int.tmod_def, Int.tmod_def, Int.neg_tdiv]
  ring

theorem tmod10_abs (x : Int) : -9 ≤ x.tmod 10 ∧ x.tmod 10 ≤ 9 := by
  rcases le_or_lt 0 x with h | h
  · have h1 := Int.tmod_nonneg 10 h
    have h2 := Int.tmod_lt_of_pos x (by norm_num : (0:Int) < 10)
    omega
  · have hx : x = -(-x) := by ring
    rw [hx, tmod_neg_left]
    have h1 := Int.tmod_nonneg 10 (by omega : (0:Int) ≤ -x)
    have h2 := Int.tmod_lt_of_pos (-x) (by norm_num : (0:Int) < 10)
    omega

/-- Iterated `value /= 10`: C division of an int32_t truncates toward
zero, which is `Int.tdiv`. -/
def divPow10 : Int → Nat → Int
  | x, 0 => x
  | x, g+1 => divPow10 (x.tdiv 10) g

/-- hp3478_rel_handle_data (lines 1662-1690), the displayed-reading
computation: the lower-scale operand is brought to the higher scale `exp +
dot` by repeated division by 10, then subtracted, the result carrying the
(dot, exp) of the higher-scale operand.  `ref` is the stored reference
`hp3478_rel_ref`, `r` the incoming reading; the C test is
`if(e_in >= e_ref)`. -/
def hp3478_rel_handle_data (ref r : Reading) : Reading :=
  if scaleE ref ≤ scaleE r then
    ⟨r.value - divPow10 ref.value (scaleE r - scaleE ref).toNat, r.dot, r.exp⟩
  else
    ⟨divPow10 r.value (scaleE ref - scaleE r).toNat - ref.value, ref.dot, ref.exp⟩

theorem divPow10_err : ∀ (g : Nat) (x : Int),
    divPow10 x g * 10 ^ g - x ≤ 10 ^ g - 1
    ∧ x - divPow10 x g * 10 ^ g ≤ 10 ^ g - 1 := by
  intro g
  induction g with
  | zero => intro x; simp [divPow10]
  | succ n ih =>
    intro x
    have hdm := Int.tdiv_add_tmod x 10
    have hm := tmod10_abs x
    have ihq := ih (x.tdiv 10)
    have hdef : divPow10 x (n+1) = divPow10 (x.tdiv 10) n := rfl
    have hp : (10:Int) ^ (n+1) = 10 ^ n * 10 := by ring
    have hmul : divPow10 (x.tdiv 10) n * 10 ^ (n+1) =
        (divPow10 (x.tdiv 10) n * 10 ^ n) * 10 := by ring
    rw [hdef]
    constructor
    · rw [hmul, hp]
      linarith [ihq.1]
    · rw [hmul, hp]
      linarith [ihq.2]

theorem zpow_ten_split (e1 e2 : Int) (h : e2 ≤ e1) :
    (10:Rat) ^ e1 = (10:Rat) ^ e2 * (10:Rat) ^ ((e1 - e2).toNat) := by
  rw [← zpow_natCast (10:Rat) ((e1 - e2).toNat),
    ← zpow_add₀ (by norm_num : (10:Rat) ≠ 0)]
  congr 1
  omega

/-- Scaling a value from scale `e2` up to scale `e1 ≥ e2` by truncating
division loses strictly less than one unit of the coarser scale. -/
theorem divPow10_scaled_err (v : Int) (e1 e2 : Int) (h : e2 ≤ e1) :
    |((divPow10 v ((e1 - e2).toNat) : Int) : Rat) * (10:Rat) ^ e1
      - (v : Rat) * (10:Rat) ^ e2| < (10:Rat) ^ e1 := by
  have hpos : (0:Rat) < (10:Rat) ^ e2 := zpow_pos (by norm_num) e2
  have hsplit := zpow_ten_split e1 e2 h
  have hfac : ((divPow10 v ((e1 - e2).toNat) : Int) : Rat) * (10:Rat) ^ e1
      - (v : Rat) * (10:Rat) ^ e2 =
      ((divPow10 v ((e1 - e2).toNat) * 10 ^ ((e1 - e2).toNat) - v : Int) : Rat)
        * (10:Rat) ^ e2 := by
    rw [hsplit]
    push_cast
    ring
  have herr := divPow10_err ((e1 - e2).toNat) v
  have hint : |divPow10 v ((e1 - e2).toNat) * 10 ^ ((e1 - e2).toNat) - v|
      ≤ 10 ^ ((e1 - e2).toNat) - 1 :=
    abs_le.2 ⟨by linarith [herr.2], herr.1⟩
  have h1 : |((divPow10 v ((e1 - e2).toNat) * 10 ^ ((e1 - e2).toNat) - v : Int) : Rat)|
      ≤ (10:Rat) ^ ((e1 - e2).toNat) - 1 := by
    rw [← Int.cast_abs]
    exact_mod_cast hint
  rw [hfac, abs_mul, abs_of_pos hpos]
  calc |((divPow10 v ((e1 - e2).toNat) * 10 ^ ((e1 - e2).toNat) - v : Int) : Rat)|
        * (10:Rat) ^ e2
      ≤ ((10:Rat) ^ ((e1 - e2).toNat) - 1) * (10:Rat) ^ e2 :=
        mul_le_mul_of_nonneg_right h1 (le_of_lt hpos)
    _ < (10:Rat) ^ ((e1 - e2).toNat) * (10:Rat) ^ e2 :=
        mul_lt_mul_of_pos_right (by linarith) hpos
    _ = (10:Rat) ^ e1 := by rw [hsplit]; ring

/-- C5: for non-overload readings `a` (new) and `b` (reference), the
displayed reading computed by hp3478_rel_handle_data carries the scale
(and the dot/exp pair) of the coarser-scale operand, and denotes `a - b`
to within one least-significant digit of that coarser scale (strictly less
than one unit `10 ^ max(scale a, scale b)`). -/
theorem C5_rel_handle_data (a b : Reading) (ha : a.exp ≠ 9) (hb : b.exp ≠ 9) :
    scaleE (hp3478_rel_handle_data b a) = max (scaleE a) (scaleE b)
    ∧ (scaleE b ≤ scaleE a →
        (hp3478_rel_handle_data b a).dot = a.dot
        ∧ (hp3478_rel_handle_data b a).exp = a.exp)
    ∧ (scaleE a < scaleE b →
        (hp3478_rel_handle_data b a).dot = b.dot
        ∧ (hp3478_rel_handle_data b a).exp = b.exp)
    ∧ |nuQ (hp3478_rel_handle_data b a) - (nuQ a - nuQ b)|
        < (10:Rat) ^ (max (scaleE a) (scaleE b)) := by
  by_cases hse : scaleE b ≤ scaleE a
  · have hout : hp3478_rel_handle_data b a =
        ⟨a.value - divPow10 b.value (scaleE a - scaleE b).toNat, a.dot, a.exp⟩ := by
      rw [hp3478_rel_handle_data, if_pos hse]
    have hmax : max (scaleE a) (scaleE b) = scaleE a := max_eq_left hse
    have hsc : scaleE (⟨a.value - divPow10 b.value (scaleE a - scaleE b).toNat,
        a.dot, a.exp⟩ : Reading) = scaleE a := rfl
    refine ⟨by rw [hout, hsc, hmax], fun _ => by rw [hout]; exact ⟨rfl, rfl⟩, fun hlt => absurd hse (by omega), ?_⟩
    have hkey : nuQ (hp3478_rel_handle_data b a) - (nuQ a - nuQ b) =
        -(((divPow10 b.value ((scaleE a - scaleE b).toNat) : Int) : Rat)
            * (10:Rat) ^ (scaleE a) - (b.value : Rat) * (10:Rat) ^ (scaleE b)) := by
      rw [hout]
      unfold nuQ
      rw [hsc]
      push_cast
      ring
    rw [hkey, abs_neg, hmax]
    exact divPow10_scaled_err b.value (scaleE a) (scaleE b) hse
  · have hlt : scaleE a < scaleE b := by omega
    have hout : hp3478_rel_handle_data b a =
        ⟨divPow10 a.value (scaleE b - scaleE a).toNat - b.value, b.dot, b.exp⟩ := by
      rw [hp3478_rel_handle_data, if_neg hse]
    have hmax : max (scaleE a) (scaleE b) = scaleE b := max_eq_right (le_of_lt hlt)
    have hsc : scaleE (⟨divPow10 a.value (scaleE b - scaleE a).toNat - b.value,
        b.dot, b.exp⟩ : Reading) = scaleE b := rfl
    refine ⟨by rw [hout, hsc, hmax], fun hge => absurd hge (by omega), fun _ => by rw [hout]; exact ⟨rfl, rfl⟩, ?_⟩
    have hkey : nuQ (hp3478_rel_handle_data b a) - (nuQ a - nuQ b) =
        ((divPow10 a.value ((scaleE b - scaleE a).toNat) : Int) : Rat)
            * (10:Rat) ^ (scaleE b) - (a.value : Rat) * (10:Rat) ^ (scaleE a) := by
      rw [hout]
      unfold nuQ
      rw [hsc]
      push_cast
      ring
    rw [hkey, hmax]
    exact divPow10_scaled_err a.value (scaleE b) (scaleE a) (le_of_lt hlt)

theorem C5_rel_handle_data_witness :
    ((0:Int) ≠ 9 ∧ (3:Int) ≠ 9) ∧
    scaleE (hp3478_rel_handle_data ⟨100, 0, 3⟩ ⟨123456, 2, 0⟩) =
      max (scaleE (⟨123456, 2, 0⟩ : Reading)) (scaleE (⟨100, 0, 3⟩ : Reading)) :=
  ⟨⟨by decide, by decide⟩,
    (C5_rel_handle_data ⟨123456, 2, 0⟩ ⟨100, 0, 3⟩ (by decide) (by decide)).1⟩



/-! ## Auto-hold (hp3478_autohold_min_value lines 2378-2404,
hp3478_autohold_process lines 2411-2488)

Status-byte-0 bit fields: HP3478_ST_FUNC = 7<<5 = 224 (DCV = 1<<5 = 32),
HP3478_ST_RANGE = 7<<2 = 28 (RANGE3 = 3<<2 = 12), HP3478_ST_N_DIGITS = 3;
status-byte-1: HP3478_ST_AUTORANGE = 2.  Status byte 3: HP3478_SB_DREADY =
1.  AUTO_HOLD_NO_RESUME is not defined in the build, so the resume branch
(lines 2457-2463, 2480) is the live code.

The three abs() calls (lines 2448, 2449, 2458) are avr-libc's
`int abs(int)`; on the atmega328p `int` is 16 bits, so the int32_t
arguments are first truncated to a signed 16-bit value, and the 16-bit
negation of -32768 wraps back to -32768.  `avr_abs` models this. -/

def HP3478_SB_DREADY : Nat := 1

def AHLD_NOP : Nat := 0

def AHLD_LOCK : Nat := 2

def AHLD_UNLOCK : Nat := 3

def AHLD_ERROR : Nat := 4

/-- hp3478_autohold_min_value (lines 2378-2404): the stability floor as a
function of status byte 0 (function, range, digit count).  The switch key
is `st & (HP3478_ST_FUNC | HP3478_ST_N_DIGITS)`; DCV|5d etc. enumerate
{DCV,ACV,DCA,ACA} × {5½, 4½, 3½}. -/
def hp3478_autohold_min_value (st : Nat) : Int :=
  if st &&& 224 = 32 ∧ st &&& 28 ≤ 12 then 0
  else
    match st &&& 227 with
    | 33 | 65 | 161 | 193 => 10
    | 34 | 66 | 162 | 194 => 100
    | 35 | 67 | 163 | 195 => 1000
    | _ => 0

/-- Conversion of an integer to the signed 16-bit value with the same
residue mod 2^16 (the int32_t-to-int conversion of avr-gcc). -/
def toInt16 (x : Int) : Int :=
  if x.emod 65536 < 32768 then x.emod 65536 else x.emod 65536 - 65536

/-- avr-libc `int abs(int)` applied to an int32_t argument: truncate to 16
bits, take the absolute value, and wrap the result back to 16 bits (so
avr_abs of anything congruent to -32768 is -32768). -/
def avr_abs (x : Int) : Int := toInt16 |toInt16 x|

/-- Per-call state of the auto-hold machine: `ahld_n_stable`, the tracked
reference `minmax_min`, the locked value `minmax_max`, and
`hp3478_saved_state[0]`/`[1]`. -/
structure AhldState where
  nstab : Nat
  mmin : Reading
  mmax : Reading
  st0 : Nat
  st1 : Nat
deriving DecidableEq

/-- Environment of one hp3478_autohold_process call: the result of
hp3478_get_reading (`none` = failure), of hp3478_get_status (only bytes 0
and 1 are consulted), and whether hp3478_display_reading succeeds. -/
structure AhldEnv where
  reading : Option Reading
  status : Option (Nat × Nat)
  displayOk : Bool

/-- hp3478_autohold_process (lines 2411-2488), returning the result code
and the updated static state. -/
def hp3478_autohold_process (locked : Bool) (sb : Nat) (s : AhldState)
    (env : AhldEnv) : Nat × AhldState :=
  if sb &&& HP3478_SB_DREADY = 0 then (AHLD_NOP, s)
  else
    match env.reading with
    | none => (AHLD_ERROR, s)
    | some r =>
      if r.exp ≠ s.mmin.exp ∨ r.dot ≠ s.mmin.dot ∨ r.exp = 9 then
        match env.status with
        | none => (AHLD_ERROR, s)
        | some (s0, s1) =>
          let m := 224 ||| 3 ||| (if s.st1 &&& 2 = 0 then 28 else 0)
          let changed := ((s0 ^^^ s.st0) &&& m ≠ 0) ∨ ((s1 ^^^ s.st1) &&& 2 ≠ 0)
          let ret := if changed ∧ locked then AHLD_UNLOCK else AHLD_NOP
          let lockedNow := locked ∧ ¬ changed
          let s' : AhldState := ⟨1, r, s.mmax, s0, if changed then s1 else s.st1⟩
          if lockedNow then (ret, s')
          else if env.displayOk then (ret, s') else (AHLD_ERROR, s')
      else if s.nstab ≠ 0 ∧ avr_abs (r.value - s.mmin.value) < 3
              ∧ hp3478_autohold_min_value s.st0 ≤ avr_abs r.value then
        if s.nstab + 1 = 5 then
          if locked ∧ avr_abs (r.value - s.mmax.value) < 3 ∧ r.exp = s.mmax.exp
              ∧ r.dot = s.mmax.dot then
            (AHLD_NOP, {s with nstab := 0})
          else
            if env.displayOk then (AHLD_LOCK, {s with mmax := s.mmin, nstab := 0})
            else (AHLD_ERROR, {s with mmax := s.mmin, nstab := 0})
        else (AHLD_NOP, {s with nstab := s.nstab + 1})
      else
        if locked then (AHLD_NOP, {s with mmin := r, nstab := 1})
        else if env.displayOk then (AHLD_NOP, {s with mmin := r, nstab := 1})
        else (AHLD_ERROR, {s with mmin := r, nstab := 1})

/-- Environment for a tracking step: a successful reading, display OK
(status is not consulted on the in-window path). -/
def mkAhldEnv (r : Reading) : AhldEnv := ⟨some r, none, true⟩

/-- Feed a list of readings through hp3478_autohold_process while in
tracking (locked = 0), collecting the result codes. -/
def ahldTrackRun (sb : Nat) (s : AhldState) : List Reading → List Nat × AhldState
  | [] => ([], s)
  | r :: rs =>
    let out := hp3478_autohold_process false sb s (mkAhldEnv r)
    let rest := ahldTrackRun sb out.2 rs
    (out.1 :: rest.1, rest.2)

theorem ahld_step_stable (sb : Nat) (s : AhldState) (r : Reading)
    (hsb : sb &&& HP3478_SB_DREADY ≠ 0)
    (hexp : r.exp = s.mmin.exp) (hdot : r.dot = s.mmin.dot) (h9 : r.exp ≠ 9)
    (hd : avr_abs (r.value - s.mmin.value) < 3)
    (hf : hp3478_autohold_min_value s.st0 ≤ avr_abs r.value)
    (hn : s.nstab ≠ 0) :
    hp3478_autohold_process false sb s (mkAhldEnv r) =
      (if s.nstab + 1 = 5 then AHLD_LOCK else AHLD_NOP,
       if s.nstab + 1 = 5 then {s with mmax := s.mmin, nstab := 0}
       else {s with nstab := s.nstab + 1}) := by
  rw [hp3478_autohold_process, if_neg hsb]
  simp only [mkAhldEnv]
  rw [if_neg (by push_neg; exact ⟨hexp, hdot, h9⟩), if_pos ⟨hn, hd, hf⟩]
  by_cases h5 : s.nstab + 1 = 5
  · rw [if_pos h5, if_neg (by simp), if_pos trivial, if_pos h5, if_pos h5]
  · rw [if_neg h5, if_neg h5, if_neg h5]

/-- C3 (amended): starting from tracking with one reading recorded
(`ahld_n_stable = 1`, reference in `minmax_min`), four further readings in
the stability window (same exp/dot as the reference, not overload, value
within 3 LSB counts of the reference and magnitude at or above
hp3478_autohold_min_value — both measured by the firmware's 16-bit abs(),
which truncates the int32_t arguments mod 2^16) make the process return
NOP, NOP, NOP, then
AHLD_LOCK — five stable readings in total.  While locked, a reading with a
different scale or the overload sentinel returns AHLD_UNLOCK exactly when
the freshly polled status differs from the saved one on
function/digits (plus range when autorange is off) or on the autorange
flag; otherwise the process returns AHLD_NOP and silently restarts
tracking. -/
theorem C3_autohold_amended (sb : Nat) (s : AhldState) (r1 r2 r3 r4 : Reading)
    (hsb : sb &&& HP3478_SB_DREADY ≠ 0) (hn1 : s.nstab = 1)
    (hw : ∀ r ∈ [r1, r2, r3, r4], r.exp = s.mmin.exp ∧ r.dot = s.mmin.dot
      ∧ r.exp ≠ 9 ∧ avr_abs (r.value - s.mmin.value) < 3
      ∧ hp3478_autohold_min_value s.st0 ≤ avr_abs r.value) :
    (ahldTrackRun sb s [r1, r2, r3, r4]).1 =
      [AHLD_NOP, AHLD_NOP, AHLD_NOP, AHLD_LOCK]
    ∧ (∀ (t : AhldState) (r' : Reading) (s0 s1 sb' : Nat),
        sb' &&& HP3478_SB_DREADY ≠ 0 →
        (r'.exp ≠ t.mmin.exp ∨ r'.dot ≠ t.mmin.dot ∨ r'.exp = 9) →
        ((hp3478_autohold_process true sb' t ⟨some r', some (s0, s1), true⟩).1
            = AHLD_UNLOCK
          ↔ (((s0 ^^^ t.st0) &&&
                (224 ||| 3 ||| (if t.st1 &&& 2 = 0 then 28 else 0))) ≠ 0
             ∨ ((s1 ^^^ t.st1) &&& 2) ≠ 0))) := by
  constructor
  · have h1 := hw r1 (by simp)
    have h2 := hw r2 (by simp)
    have h3 := hw r3 (by simp)
    have h4 := hw r4 (by simp)
    have e1 : hp3478_autohold_process false sb s (mkAhldEnv r1) =
        (AHLD_NOP, {s with nstab := 2}) := by
      rw [ahld_step_stable sb s r1 hsb h1.1 h1.2.1 h1.2.2.1 h1.2.2.2.1 h1.2.2.2.2
        (by omega)]
      rw [if_neg (by omega), if_neg (by omega)]
      have : s.nstab + 1 = 2 := by omega
      rw [this]
    have e2 : hp3478_autohold_process false sb {s with nstab := 2} (mkAhldEnv r2) =
        (AHLD_NOP, {s with nstab := 3}) := by
      rw [ahld_step_stable sb {s with nstab := 2} r2 hsb h2.1 h2.2.1 h2.2.2.1
        h2.2.2.2.1 h2.2.2.2.2 (by simp)]
      rw [if_neg (by simp), if_neg (by simp)]
    have e3 : hp3478_autohold_process false sb {s with nstab := 3} (mkAhldEnv r3) =
        (AHLD_NOP, {s with nstab := 4}) := by
      rw [ahld_step_stable sb {s with nstab := 3} r3 hsb h3.1 h3.2.1 h3.2.2.1
        h3.2.2.2.1 h3.2.2.2.2 (by simp)]
      rw [if_neg (by simp), if_neg (by simp)]
    have e4 : hp3478_autohold_process false sb {s with nstab := 4} (mkAhldEnv r4) =
        (AHLD_LOCK, {s with mmax := s.mmin, nstab := 0}) := by
      rw [ahld_step_stable sb {s with nstab := 4} r4 hsb h4.1 h4.2.1 h4.2.2.1
        h4.2.2.2.1 h4.2.2.2.2 (by simp)]
      rw [if_pos (by simp), if_pos (by simp)]
    simp [ahldTrackRun, e1, e2, e3, e4]
  · intro t r' s0 s1 sb' hsb' hbr
    rw [hp3478_autohold_process, if_neg hsb']
    simp only
    rw [if_pos hbr]
    by_cases hch : ((s0 ^^^ t.st0) &&&
        (224 ||| 3 ||| (if t.st1 &&& 2 = 0 then 28 else 0))) ≠ 0
        ∨ ((s1 ^^^ t.st1) &&& 2) ≠ 0
    · rw [if_neg (fun hc => hc.2 hch), if_pos trivial, if_pos ⟨hch, trivial⟩]
      simp [AHLD_UNLOCK]
      simpa using hch
    · rw [if_pos ⟨trivial, hch⟩, if_neg (fun hc => hch hc.1)]
      simp [AHLD_NOP, AHLD_UNLOCK]
      simpa using hch

/-- Saved status DCV, range 3 V, 5½ digits (0x2D); internal trigger,
autorange off. -/
def ahldCexState : AhldState := ⟨0, ⟨299999, 1, 0⟩, ⟨299999, 1, 0⟩, 45, 1⟩

/-- While locked, an overload reading arrives; the re-polled status is
unchanged. -/
def ahldCexEnv : AhldEnv := ⟨some ⟨9999999, 1, 9⟩, some (45, 1), true⟩

/-- C3 counterexample: locked auto-hold, a single overload reading
(exp = 9, a reading outside the stability window) with unchanged
instrument status: hp3478_autohold_process returns AHLD_NOP, not the
AHLD_UNLOCK transition back to tracking that the claim requires. -/
theorem C3_autohold_counterexample :
    (hp3478_autohold_process true 1 ahldCexState ahldCexEnv).1 = AHLD_NOP
    ∧ AHLD_NOP ≠ AHLD_UNLOCK := by
  constructor
  · rfl
  · decide

theorem C3_autohold_amended_witness :
    ((1 : Nat) &&& HP3478_SB_DREADY ≠ 0) ∧
    (ahldTrackRun 1 ⟨1, ⟨100000, 1, 0⟩, ⟨0, 0, 0⟩, 45, 1⟩
        [⟨100001, 1, 0⟩, ⟨100000, 1, 0⟩, ⟨99999, 1, 0⟩, ⟨100001, 1, 0⟩]).1 =
      [AHLD_NOP, AHLD_NOP, AHLD_NOP, AHLD_LOCK] :=
  ⟨by decide,
    (C3_autohold_amended 1 ⟨1, ⟨100000, 1, 0⟩, ⟨0, 0, 0⟩, 45, 1⟩
      ⟨100001, 1, 0⟩ ⟨100000, 1, 0⟩ ⟨99999, 1, 0⟩ ⟨100001, 1, 0⟩
      (by decide) (by decide)
      (by intro r hr; fin_cases hr <;> refine ⟨by decide, by decide, by decide, by decide, by decide⟩)).1⟩



/-! ## 3478A protocol layer session teardown (hp3478_cmd lines 1240-1282,
hp3478_get_srq_status lines 1328-1366, hp3478_read lines 1368-1407)

The bus state tracked here is what the claim is about: the ATN and REN
drivers and the `gpib_state` variable (0 = untalked/idle, 1 = GPIB_LISTEN,
2 = GPIB_TALK).  `ok k` abstracts the success of the k-th byte-transfer
operation (a `gpib_transmit_b` call, or for receives, whether the expected
byte count arrived); each function threads the operation counter. -/

structure GpibBus where
  atn : Bool
  ren : Bool
  state : Nat
deriving DecidableEq

/-- Flag bits of the protocol layer (lines 1231-1236). -/
def HP3478_CMD_LISTEN : Nat := 1

def HP3478_CMD_TALK : Nat := 2

def HP3478_CMD_REMOTE : Nat := 4

/-- hp3478_cmd (lines 1240-1282).  Returns (success, final bus state, next
operation counter).  The `fail` label (lines 1277-1281) is
`set_atn(0); set_ren(0); gpib_state = 0`. -/
def hp3478_cmd (ok : Nat → Bool) (k : Nat) (b : GpibBus) (flags : Nat) :
    Bool × GpibBus × Nat :=
  let b0 : GpibBus := ⟨b.atn, true, b.state⟩
  if b.state ≠ 2 then
    if ok k then
      hp3478_cmd_rest ok (k+1) ⟨false, true, b0.state⟩ flags
    else (false, ⟨false, false, 0⟩, k+1)
  else hp3478_cmd_rest ok k b0 flags
where
  /-- The part of hp3478_cmd after addressing (lines 1258-1276). -/
  hp3478_cmd_rest (ok : Nat → Bool) (k : Nat) (b : GpibBus) (flags : Nat) :
      Bool × GpibBus × Nat :=
    if ok k then
      let b1 : GpibBus := if flags &&& HP3478_CMD_REMOTE = 0 then ⟨b.atn, false, b.state⟩ else b
      if flags &&& HP3478_CMD_TALK = 0 then
        if ok (k+1) then (true, ⟨false, b1.ren, 0⟩, k+2)
        else (false, ⟨false, false, 0⟩, k+2)
      else (true, ⟨b1.atn, b1.ren, 2⟩, k+1)
    else (false, ⟨false, false, 0⟩, k+1)

/-- hp3478_get_srq_status (lines 1328-1366): `gpib_state = 0` is set
unconditionally at entry (line 1336); the `fail` label (lines 1362-1365)
is `gpib_talk(); set_atn(0)` — REN is never touched. -/
def hp3478_get_srq_status (ok : Nat → Bool) (k : Nat) (b : GpibBus) :
    Bool × GpibBus × Nat :=
  if ok k then
    if ok (k+1) then
      if ok (k+2) then (true, ⟨false, b.ren, 0⟩, k+3)
      else (false, ⟨false, b.ren, 0⟩, k+3)
    else (false, ⟨false, b.ren, 0⟩, k+2)
  else (false, ⟨false, b.ren, 0⟩, k+1)

/-- hp3478_read (lines 1368-1407): addressing when not already listening,
receive until EOI (success = `gpib_receive(...) == GPIB_END_EOI`, modelled
by the oracle), optional untalk; the `fail` label (lines 1402-1406) is
`gpib_talk(); set_atn(0); gpib_state = 0` — REN is never touched. -/
def hp3478_read (ok : Nat → Bool) (k : Nat) (b : GpibBus) (flags : Nat) :
    Bool × GpibBus × Nat :=
  if b.state ≠ 1 then
    if ok k then
      hp3478_read_rest ok (k+1) ⟨false, b.ren, b.state⟩ flags
    else (false, ⟨false, b.ren, 0⟩, k+1)
  else hp3478_read_rest ok k b flags
where
  /-- The part of hp3478_read after addressing (lines 1384-1401). -/
  hp3478_read_rest (ok : Nat → Bool) (k : Nat) (b : GpibBus) (flags : Nat) :
      Bool × GpibBus × Nat :=
    if ok k then
      if flags &&& HP3478_CMD_LISTEN = 0 then
        if ok (k+1) then (true, ⟨false, b.ren, 0⟩, k+2)
        else (false, ⟨false, b.ren, 0⟩, k+2)
      else (true, ⟨b.atn, b.ren, 1⟩, k+1)
    else (false, ⟨false, b.ren, 0⟩, k+1)

/-- C6 (amended): on every failure return, each of the three protocol
operations leaves the session untalked (`gpib_state = 0`) with ATN
released; hp3478_cmd additionally releases REN, while hp3478_read and
hp3478_get_srq_status leave REN exactly as it was (they never touch it). -/
theorem C6_protocol_failure_teardown (ok : Nat → Bool) (k : Nat) (b : GpibBus)
    (flags : Nat) :
    ((hp3478_cmd ok k b flags).1 = false →
      (hp3478_cmd ok k b flags).2.1.atn = false
      ∧ (hp3478_cmd ok k b flags).2.1.ren = false
      ∧ (hp3478_cmd ok k b flags).2.1.state = 0)
    ∧ ((hp3478_read ok k b flags).1 = false →
      (hp3478_read ok k b flags).2.1.atn = false
      ∧ (hp3478_read ok k b flags).2.1.state = 0
      ∧ (hp3478_read ok k b flags).2.1.ren = b.ren)
    ∧ ((hp3478_get_srq_status ok k b).1 = false →
      (hp3478_get_srq_status ok k b).2.1.atn = false
      ∧ (hp3478_get_srq_status ok k b).2.1.state = 0
      ∧ (hp3478_get_srq_status ok k b).2.1.ren = b.ren) := by
  refine ⟨?_, ?_, ?_⟩
  · intro hf
    simp only [hp3478_cmd, hp3478_cmd.hp3478_cmd_rest] at hf ⊢
    split_ifs at hf ⊢ <;> simp_all
  · intro hf
    simp only [hp3478_read, hp3478_read.hp3478_read_rest] at hf ⊢
    split_ifs at hf ⊢ <;> simp_all
  · intro hf
    simp only [hp3478_get_srq_status] at hf ⊢
    split_ifs at hf ⊢ <;> simp_all

/-- C6 counterexample: with REN left asserted by a previous
hp3478_cmd(..., HP3478_CMD_REMOTE) and the first transfer failing,
hp3478_read fails but returns with REN still asserted, contradicting the
claim that failure tears the session down with REN released. -/
theorem C6_ren_not_released_counterexample :
    (hp3478_read (fun _ => false) 0 ⟨false, true, 0⟩ 0).1 = false
    ∧ (hp3478_read (fun _ => false) 0 ⟨false, true, 0⟩ 0).2.1.ren = true := by
  constructor
  · rfl
  · rfl

theorem C6_protocol_failure_teardown_witness :
    (hp3478_cmd (fun _ => false) 0 ⟨false, false, 0⟩ 0).2.1.atn = false
    ∧ (hp3478_cmd (fun _ => false) 0 ⟨false, false, 0⟩ 0).2.1.ren = false
    ∧ (hp3478_cmd (fun _ => false) 0 ⟨false, false, 0⟩ 0).2.1.state = 0 :=
  (C6_protocol_failure_teardown (fun _ => false) 0 ⟨false, false, 0⟩ 0).1 (by rfl)



/-! ## THD shell command (command_handler lines 1122-1148,
convert_hex_message lines 606-630) -/

def ishexdigit (x : Nat) : Bool :=
  (48 ≤ x && x ≤ 57) || (65 ≤ x && x ≤ 70) || (97 ≤ x && x ≤ 102)

def hex2dec (x : Nat) : Nat :=
  if x ≤ 57 then x - 48 else if x ≤ 70 then x - 65 + 10 else x - 97 + 10

def hexPairs : List Nat → List Nat
  | c1 :: c2 :: rest => ((hex2dec c1) <<< 4 ||| hex2dec c2) :: hexPairs rest
  | _ => []

/-- convert_hex_message (lines 606-630): decode a hex argument into
(data bytes, send_eoi flag), `none` on error.  The `len < 2` test precedes
the trailing-';' strip; ';' clears send_eoi, otherwise send_eoi =
GPIB_END_EOI. -/
def convert_hex_message (buf : List Nat) : Option (List Nat × Nat) :=
  if buf.length < 2 then none
  else
    let stripped := if buf.getLast? = some 59 then buf.dropLast else buf
    let sendEoi := if buf.getLast? = some 59 then 0 else GPIB_END_EOI
    if stripped.length % 2 ≠ 0 then none
    else if ¬ (stripped.all ishexdigit) then none
    else some (hexPairs stripped, sendEoi)

/-- The THD transmit path of command_handler (lines 1129-1143) when the
controller is not in the listen state: the hex argument is decoded and the
bytes are handed to gpib_transmit with end-of-message argument 0 — the
literal third argument at line 1140; the send_eoi flag computed by
convert_hex_message is not used by the THD branch. -/
def command_THD_send (args : List Nat) : Option (List Nat × Nat) :=
  match convert_hex_message args with
  | none => none
  | some (out, _sendEoi) => some (out, 0)

/-- C9/C7 evidence helper section: menu timeout (hp3478a_handler lines
2777-2784, `static uint8_t hp3478_menu_timeout` at line 1692). -/

def HP3478_IDLE : Nat := 2

def HP3478_MENU : Nat := 5

def TIMEOUT_INF : Nat := 0xffff

/-- The HP3478_MENU_WAIT arm of hp3478a_handler (lines 2777-2784):
`++hp3478_menu_timeout` increments the uint8_t counter (mod 256) and
compares it with 300; on equality the state becomes HP3478_IDLE (after
restoring the display with "D1KM20") with an infinite timeout, otherwise
the machine stays in HP3478_MENU and returns a 100 ms timeout. -/
def hp3478_menu_wait_tick (state t : Nat) : Nat × Nat × Nat :=
  if (t + 1) % 256 = 300 then (HP3478_IDLE, (t + 1) % 256, TIMEOUT_INF)
  else (state, (t + 1) % 256, 100)

/-- `n` consecutive 100 ms wait periods whose handler result is
HP3478_MENU_WAIT (no front-panel key press), starting from (state,
counter). -/
def menuWaitIter : Nat → Nat × Nat → Nat × Nat
  | 0, st => st
  | n+1, st =>
    menuWaitIter n ((hp3478_menu_wait_tick st.1 st.2).1,
      (hp3478_menu_wait_tick st.1 st.2).2.1)

/-- C7: evaluation of the THD send path at the failing input "THD41".
convert_hex_message decodes "41" to the byte 0x41 with send_eoi =
GPIB_END_EOI (no trailing ';'), but the THD branch passes the literal 0 to
gpib_transmit, so no byte of the transfer carries EOI — identical to the
";"-suppressed form — contradicting the claim (and the firmware's own help
text) that the no-';' form asserts EOI on the last byte. -/
theorem C7_thd_eoi_dropped :
    convert_hex_message [52, 49] = some ([65], GPIB_END_EOI)
    ∧ command_THD_send [52, 49] = some ([65], 0)
    ∧ command_THD_send [52, 49, 59] = some ([65], 0)
    ∧ (∀ p ∈ (gpib_transmit txEnvAllOk [65] 0).1, p.2 = false) := by
  refine ⟨by decide, by decide, by decide, by decide⟩

/-- C9: the uint8_t menu-timeout counter wraps modulo 256, so the test
`++hp3478_menu_timeout == 300` can never be true: after any number of
consecutive HP3478_MENU_WAIT periods with no key press — in particular
after the 300 periods that make up the claimed 30 s — the extension state
machine is still in HP3478_MENU; it never returns to idle by timeout. -/
theorem C9_menu_timeout_never_fires :
    (∀ n t, (menuWaitIter n (HP3478_MENU, t)).1 = HP3478_MENU)
    ∧ (menuWaitIter 300 (HP3478_MENU, 0)).1 ≠ HP3478_IDLE := by
  have hstep : ∀ s t, (hp3478_menu_wait_tick s t).1 = s := by
    intro s t
    rw [hp3478_menu_wait_tick]
    have hm : (t + 1) % 256 < 256 := Nat.mod_lt _ (by norm_num)
    rw [if_neg (by omega)]
  have hall : ∀ n s t, (menuWaitIter n (s, t)).1 = s := by
    intro n
    induction n with
    | zero => intro s t; rfl
    | succ m ih =>
      intro s t
      show (menuWaitIter m ((hp3478_menu_wait_tick s t).1,
        (hp3478_menu_wait_tick s t).2.1)).1 = s
      rw [hstep s t]
      exact ih s _
  refine ⟨fun n t => hall n HP3478_MENU t, ?_⟩
  rw [hall 300 HP3478_MENU 0]
  decide



/-! ## Configuration options (struct opt_info and opts[] lines 812-880,
get_opt_info lines 882-905, get_set_opt lines 908-1011, set_defaults
lines 2932-2944; defaults EEP_DEF0_* from eepmap.h)

Options are identified below by their index in opts[]; the live variables
and the EEPROM cells they mirror are modelled as stores indexed by that
option number. -/

structure OptInfo where
  name : List Nat
  max : Nat
  w16 : Bool
  dflt : Nat
deriving DecidableEq

def optX : OptInfo := ⟨[88], 1, false, 0⟩

/-- opts[] (lines 822-880) with the EEP_DEF0_* defaults from eepmap.h. -/
def opts : List OptInfo := [
  optX,
  ⟨[73], 1, false, 1⟩,
  ⟨[67], 30, false, 21⟩,
  ⟨[68], 31, false, 23⟩,
  ⟨[82], 7, false, 4⟩,
  ⟨[84], 7, false, 4⟩,
  ⟨[66], 4, false, 0⟩,
  ⟨("init_mode".toList.map Char.toNat), 0x7fff, true, 0⟩,
  ⟨("beep_period".toList.map Char.toNat), 65534, true, 10000⟩,
  ⟨("beep_duty".toList.map Char.toNat), 127, false, 15⟩,
  ⟨("cont_thr".toList.map Char.toNat), 3000, true, 1000⟩,
  ⟨("cont_latch".toList.map Char.toNat), 100, false, 0⟩,
  ⟨("cont_range".toList.map Char.toNat), 6, false, 1⟩,
  ⟨("cont_beep_ta".toList.map Char.toNat), 3000, true, 1000⟩,
  ⟨("cont_beep_tb".toList.map Char.toNat), 3000, true, 1000⟩,
  ⟨("cont_beep_pa".toList.map Char.toNat), 65534, true, 10000⟩,
  ⟨("cont_beep_pb".toList.map Char.toNat), 65534, true, 10000⟩,
  ⟨("cont_beep_da".toList.map Char.toNat), 127, false, 15⟩,
  ⟨("cont_beep_db".toList.map Char.toNat), 127, false, 15⟩]

/-- Characters accepted in an option name (line 890): letters and '_'. -/
def nameChar (c : Nat) : Bool :=
  (97 ≤ c && c ≤ 122) || (65 ≤ c && c ≤ 90) || (c == 95)

/-- get_opt_info (lines 882-905): take the leading name-character run of
the argument; reject an empty or over-long run; an option matches when its
name's first `len` characters equal the run (strncmp_P over `len`
characters; a shorter table name fails on its NUL); exactly one match is
required.  Returns (run length, option index). -/
def get_opt_info (buf : List Nat) : Option (Nat × Nat) :=
  let len := (buf.takeWhile nameChar).length
  if len = 0 ∨ 16 ≤ len then none
  else
    let ms := (List.range opts.length).filter
      (fun i => (opts.getD i optX).name.take len = buf.take len)
    if ms.length = 1 then some (len, ms.headD 0) else none

/-- The value-parsing loop of get_set_opt (lines 984-996): decimal digits
accumulated in a uint16_t (mod 2^16); a final 'w'/'W' sets the
write-to-EEPROM flag; any other non-digit is an error. -/
def parse_value : List Nat → Nat → Option (Nat × Bool)
  | [], v => some (v, false)
  | c :: rest, v =>
    if 48 ≤ c ∧ c ≤ 57 then parse_value rest ((v * 10 + (c - 48)) % 65536)
    else if (c = 119 ∨ c = 87) ∧ rest = [] then some (v, true)
    else none

/-- set_defaults (lines 2932-2944): every live option value is reset to
its default, then uart_echo (option index 1) is set to `set == 0`. -/
def set_defaults_model (set : Nat) : Nat → Nat :=
  fun i => if i = 1 then (if set = 0 then 1 else 0) else (opts.getD i optX).dflt

inductive OptResult where
  | errorResp
  | wrongOption
  | helpResp
  | okResp
  | valueResp (v : Nat)
deriving DecidableEq

/-- The live option values and their persisted EEPROM copies, indexed by
option number. -/
structure OptMem where
  mem : Nat → Nat
  eep : Nat → Nat

/-- get_set_opt (lines 908-1011) with its stores made explicit: '0'/'1'
apply defaults, '?' prints help, an unmatched name prints WRONG OPTION, a
bare name prints the value; otherwise the value is parsed (uint16_t
accumulator), rejected with ERROR if above the option's maximum, else
stored in the live variable and, with the 'w' suffix, in the EEPROM. -/
def get_set_opt (st : OptMem) (buf : List Nat) : OptResult × OptMem :=
  match buf with
  | [] => (.errorResp, st)
  | c :: _ =>
    if c = 48 ∨ c = 49 then (.okResp, ⟨set_defaults_model (c - 48), st.eep⟩)
    else if c = 63 then (.helpResp, st)
    else
      match get_opt_info buf with
      | none => (.wrongOption, st)
      | some (len, idx) =>
        if (buf.drop len).isEmpty then (.valueResp (st.mem idx), st)
        else
          match parse_value (buf.drop len) 0 with
          | none => (.errorResp, st)
          | some (v, w) =>
            if (opts.getD idx optX).max < v then (.errorResp, st)
            else (.okResp, ⟨fun j => if j = idx then v else st.mem j,
                  if w then (fun j => if j = idx then v else st.eep j)
                  else st.eep⟩)

/-- Decimal numeral denotation of a digit string.  Modelled from the spec:
the "numeric value" of an O-command argument, used to compare against the
option maximum. -/
def specDecimalValue (ds : List Nat) : Nat :=
  ds.foldl (fun a c => a * 10 + (c - 48)) 0

theorem get_opt_info_cons_not_name (c : Nat) (rest0 : List Nat)
    (hc : nameChar c = false) : get_opt_info (c :: rest0) = none := by
  rw [get_opt_info]
  simp [List.takeWhile_cons, hc]

/-- C8 (amended): every error path of get_set_opt leaves both the live
values and the EEPROM copies untouched; an unmatched option name answers
WRONG OPTION; a value whose uint16_t accumulation (the decimal numeral
reduced mod 2^16) exceeds the option's maximum, and a value containing a
non-digit other than a final 'w'/'W', answer ERROR — all without any
write. -/
theorem C8_opt_set_guard (st : OptMem) (buf : List Nat) :
    (((get_set_opt st buf).1 = OptResult.errorResp
      ∨ (get_set_opt st buf).1 = OptResult.wrongOption) →
        (get_set_opt st buf).2 = st)
    ∧ (∀ c rest0, buf = c :: rest0 → ¬(c = 48 ∨ c = 49) → c ≠ 63 →
        get_opt_info buf = none →
        (get_set_opt st buf).1 = OptResult.wrongOption)
    ∧ (∀ len idx v w, get_opt_info buf = some (len, idx) →
        (buf.drop len).isEmpty = false →
        parse_value (buf.drop len) 0 = some (v, w) →
        (opts.getD idx optX).max < v →
        (get_set_opt st buf).1 = OptResult.errorResp)
    ∧ (∀ len idx, get_opt_info buf = some (len, idx) →
        (buf.drop len).isEmpty = false →
        parse_value (buf.drop len) 0 = none →
        (get_set_opt st buf).1 = OptResult.errorResp) := by
  rcases hbuf : buf with _ | ⟨c, rest0⟩
  · refine ⟨fun _ => rfl, ?_, ?_, ?_⟩
    · intro c rest0 h
      exact absurd h (by simp)
    · intro len idx v w hgi
      rw [show get_opt_info [] = none from rfl] at hgi
      cases hgi
    · intro len idx hgi
      rw [show get_opt_info [] = none from rfl] at hgi
      cases hgi
  · by_cases h01 : c = 48 ∨ c = 49
    · have hout : get_set_opt st (c :: rest0) =
          (.okResp, ⟨set_defaults_model (c - 48), st.eep⟩) := by
        rw [get_set_opt, if_pos h01]
      have hgi0 : get_opt_info (c :: rest0) = none := by
        apply get_opt_info_cons_not_name
        rcases h01 with h | h <;> subst h <;> decide
      refine ⟨?_, ?_, ?_, ?_⟩
      · intro hor
        rw [hout] at hor
        rcases hor with h | h <;> cases h
      · intro c' r' heq hno _
        injection heq with h1 _
        exact absurd h01 (h1 ▸ hno)
      · intro len idx v w hgi
        rw [hgi0] at hgi
        cases hgi
      · intro len idx hgi
        rw [hgi0] at hgi
        cases hgi
    · by_cases h63 : c = 63
      · have hout : get_set_opt st (c :: rest0) = (.helpResp, st) := by
          rw [get_set_opt, if_neg h01, if_pos h63]
        have hgi0 : get_opt_info (c :: rest0) = none := by
          apply get_opt_info_cons_not_name
          subst h63
          decide
        refine ⟨?_, ?_, ?_, ?_⟩
        · intro hor
          rw [hout] at hor
          rcases hor with h | h <;> cases h
        · intro c' r' heq _ hno63 _
          injection heq with h1 _
          exact absurd (h1 ▸ h63) hno63
        · intro len idx v w hgi
          rw [hgi0] at hgi
          cases hgi
        · intro len idx hgi
          rw [hgi0] at hgi
          cases hgi
      · rcases hgi : get_opt_info (c :: rest0) with _ | ⟨len, idx⟩
        · have hout : get_set_opt st (c :: rest0) = (.wrongOption, st) := by
            rw [get_set_opt, if_neg h01, if_neg h63]
            simp only [hgi]
          refine ⟨fun _ => by rw [hout], fun _ _ _ _ _ _ => by rw [hout], ?_, ?_⟩
          · intro len idx v w hgi2
            cases hgi2
          · intro len idx hgi2
            cases hgi2
        · by_cases hre : ((c :: rest0).drop len).isEmpty
          · have hout : get_set_opt st (c :: rest0) =
                (.valueResp (st.mem idx), st) := by
              rw [get_set_opt, if_neg h01, if_neg h63]
              simp only [hgi]
              rw [if_pos hre]
            refine ⟨?_, ?_, ?_, ?_⟩
            · intro hor
              rw [hout] at hor
              rcases hor with h | h <;> cases h
            · intro c' r' heq _ _ hgi2
              cases hgi2
            · intro len2 idx2 v w hgi2 hne
              injection hgi2 with h1
              injection h1 with ha hb
              rw [← ha] at hne
              rw [hre] at hne
              cases hne
            · intro len2 idx2 hgi2 hne
              injection hgi2 with h1
              injection h1 with ha hb
              rw [← ha] at hne
              rw [hre] at hne
              cases hne
          · rcases hpv : parse_value ((c :: rest0).drop len) 0 with _ | ⟨v, w⟩
            · have hout : get_set_opt st (c :: rest0) = (.errorResp, st) := by
                rw [get_set_opt, if_neg h01, if_neg h63]
                simp only [hgi]
                rw [if_neg hre]
                simp only [hpv]
              refine ⟨fun _ => by rw [hout], ?_, ?_, fun _ _ _ _ _ => by rw [hout]⟩
              · intro c' r' heq _ _ hgi2
                cases hgi2
              · intro len2 idx2 v2 w2 hgi2 _ hpv2 _
                injection hgi2 with h1
                injection h1 with ha hb
                rw [← ha, hpv] at hpv2
                cases hpv2
            · by_cases hmax : (opts.getD idx optX).max < v
              · have hout : get_set_opt st (c :: rest0) = (.errorResp, st) := by
                  rw [get_set_opt, if_neg h01, if_neg h63]
                  simp only [hgi]
                  rw [if_neg hre]
                  simp only [hpv]
                  rw [if_pos hmax]
                refine ⟨fun _ => by rw [hout], ?_,
                  fun _ _ _ _ _ _ _ _ => by rw [hout], ?_⟩
                · intro c' r' heq _ _ hgi2
                  cases hgi2
                · intro len2 idx2 hgi2 _ hpv2
                  injection hgi2 with h1
                  injection h1 with ha hb
                  rw [← ha, hpv] at hpv2
                  cases hpv2
              · have hout : get_set_opt st (c :: rest0) =
                    (.okResp, ⟨fun j => if j = idx then v else st.mem j,
                      if w then (fun j => if j = idx then v else st.eep j)
                      else st.eep⟩) := by
                  rw [get_set_opt, if_neg h01, if_neg h63]
                  simp only [hgi]
                  rw [if_neg hre]
                  simp only [hpv]
                  rw [if_neg hmax]
                refine ⟨?_, ?_, ?_, ?_⟩
                · intro hor
                  rw [hout] at hor
                  rcases hor with h | h <;> cases h
                · intro c' r' heq _ _ hgi2
                  cases hgi2
                · intro len2 idx2 v2 w2 hgi2 _ hpv2 hmax2
                  injection hgi2 with h1
                  injection h1 with ha hb
                  rw [← ha, hpv] at hpv2
                  injection hpv2 with h2
                  injection h2 with hv hw
                  rw [← hb, ← hv] at hmax2
                  exact absurd hmax2 hmax
                · intro len2 idx2 hgi2 _ hpv2
                  injection hgi2 with h1
                  injection h1 with ha hb
                  rw [← ha, hpv] at hpv2
                  cases hpv2

/-- All-zero option stores. -/
def optMem0 : OptMem := ⟨fun _ => 0, fun _ => 0⟩

/-- C8 counterexample: the shell command `OX65537` — a set command whose
numeric value 65537 exceeds option X's declared maximum 1 — is accepted:
the uint16_t accumulator wraps 65537 to 1 ≤ 1, the shell replies OK, and
the live value of option X is modified from 0 to 1.  The claim promises
ERROR and no modification for every over-maximum value. -/
theorem C8_opt_wrap_counterexample :
    specDecimalValue [54, 53, 53, 51, 55] = 65537
    ∧ optX.max = 1
    ∧ (get_set_opt optMem0 [88, 54, 53, 53, 51, 55]).1 = OptResult.okResp
    ∧ (get_set_opt optMem0 [88, 54, 53, 53, 51, 55]).2.mem 0 = 1
    ∧ optMem0.mem 0 = 0 := by
  refine ⟨by decide, by decide, by decide, by decide, by decide⟩

theorem C8_opt_set_guard_witness :
    get_opt_info [88, 57] = some (1, 0)
    ∧ (get_set_opt optMem0 [88, 57]).1 = OptResult.errorResp :=
  ⟨by decide,
    (C8_opt_set_guard optMem0 [88, 57]).2.2.1 1 0 9 false (by decide) (by decide)
      (by decide) (by decide)⟩


end HP3478
